import Mathlib

/-!
Verification development for the uniform-grid spatial index
(`grid_range_query.cc`).  The C++ class `GridRangeQuery` is shallowly
embedded: `float` becomes `ℚ` (all inputs considered here are exact small
rationals), `size_t` becomes `ℕ`, `int` becomes `ℤ`, and the unbounded
`while` loop of `AddLineSegment` is modelled with explicit fuel.  The
geometry primitives consumed from `valhalla/midgard` (`PointLL`, `AABB2`,
`LineSegment2`) are not part of the source file and are modelled from the
design document (see the individual doc comments).
-/

/-- Model of `valhalla::midgard::PointLL` restricted to what the source
uses: a 2-D point with `x`/`y` accessors. -/
@[ext]
structure Pt where
  x : ℚ
  y : ℚ
deriving DecidableEq, Repr

/-- Model of `valhalla::midgard::AABB2`: an axis-aligned box constructed
from `(minx, miny, maxx, maxy)`. -/
structure BBox where
  minx : ℚ
  miny : ℚ
  maxx : ℚ
  maxy : ℚ
deriving DecidableEq, Repr

/-- Model of `valhalla::midgard::LineSegment2`: a segment with endpoint
accessors `a` and `b`. -/
structure Seg where
  a : Pt
  b : Pt
deriving DecidableEq, Repr

/-- Modelled from the spec: the width accessor of the bounding-box type
(`AABB2::Width`), `region.width = maxx - minx`. -/
def BBox.width (b : BBox) : ℚ := b.maxx - b.minx

/-- Modelled from the spec: the height accessor of the bounding-box type
(`AABB2::Height`), `region.height = maxy - miny`. -/
def BBox.height (b : BBox) : ℚ := b.maxy - b.miny

/-- Modelled from the spec: the containment test of the bounding-box type
(`AABB2::Contains`): the point lies within the region.  Boundary points
are taken as contained; no claim settled below depends on the treatment
of points exactly on the far boundary. -/
def bboxContains (b : BBox) (p : Pt) : Bool :=
  decide (b.minx ≤ p.x) && decide (p.x ≤ b.maxx) &&
  decide (b.miny ≤ p.y) && decide (p.y ≤ b.maxy)

/-- The C++ conversion `int(q)` applied to a finite value: truncation
toward zero. -/
def cppInt (q : ℚ) : ℤ := if 0 ≤ q then ⌊q⌋ else -⌊-q⌋

/-- Per-cell bucket storage: `std::vector<std::vector<GraphId>>`, with
`GraphId = uint32_t` modelled as `ℕ` (no arithmetic is ever performed on
identifiers, so the 32-bit bound is irrelevant). -/
def Buckets : Type := List (List ℕ)

/-- State of a `GridRangeQuery` object: the fields of the C++ class. -/
structure Grid where
  bbox : BBox
  cell_width : ℚ
  cell_height : ℚ
  num_rows : ℕ
  num_cols : ℕ
  items : List (List ℕ)
deriving DecidableEq, Repr

/-- Embedding of `GridRangeQuery::Init`.  Note the source computes
`num_rows_ = ceil(Width / cell_width)` and
`num_cols_ = ceil(Height / cell_height)` (the member names are swapped
relative to their formulas) and resizes the bucket vector to
`num_cols_ * num_rows_`. -/
def initGrid (bbox : BBox) (cell_width cell_height : ℚ) : Grid :=
  { bbox := bbox
    cell_width := cell_width
    cell_height := cell_height
    num_rows := (⌈bbox.width / cell_width⌉).toNat
    num_cols := (⌈bbox.height / cell_height⌉).toNat
    items := List.replicate
      ((⌈bbox.height / cell_height⌉).toNat * (⌈bbox.width / cell_width⌉).toNat) [] }

/-- Embedding of the first constructor `GridRangeQuery(bbox, cell_width,
cell_height)`. -/
def gridRangeQuery (bbox : BBox) (cell_width cell_height : ℚ) : Grid :=
  initGrid bbox cell_width cell_height

/-- Embedding of the second constructor `GridRangeQuery(bbox, num_cols,
num_rows)`: divide the region extents by the requested counts. -/
def gridRangeQueryN (bbox : BBox) (num_cols num_rows : ℕ) : Grid :=
  initGrid bbox (bbox.width / num_cols) (bbox.height / num_rows)

/-- Embedding of `GridRangeQuery::GridCoordinates`: componentwise
`int((p - min) / cell)` truncation. -/
def gridCoordinates (g : Grid) (p : Pt) : ℤ × ℤ :=
  (cppInt ((p.x - g.bbox.minx) / g.cell_width),
   cppInt ((p.y - g.bbox.miny) / g.cell_height))

/-- Embedding of `GridRangeQuery::CellBoundingBox`. -/
def cellBoundingBox (g : Grid) (i j : ℤ) : BBox :=
  { minx := g.bbox.minx + i * g.cell_width
    miny := g.bbox.miny + j * g.cell_height
    maxx := g.bbox.minx + (i + 1) * g.cell_width
    maxy := g.bbox.miny + (j + 1) * g.cell_height }

/-- Embedding of `GridRangeQuery::Query`: the source is a stub that
returns an empty vector for every range. -/
def query (_g : Grid) (_range : BBox) : List ℕ := []

/-- Exact model of the C++ float comparison `(num / den) < 1.0f` for
exact rational operands, including the IEEE-754 special cases produced
by a zero denominator: `0/0` is NaN and compares false, `pos/0` is `+inf`
and compares false, `neg/0` is `-inf` and compares true. -/
def fdivLt1 (num den : ℚ) : Bool :=
  if den = 0 then decide (num < 0) else decide (num / den < 1)

/-- Embedding of the loop guard `Unlerp(start, end, current) < 1.0` with
`GridRangeQuery::Unlerp` inlined: pick the axis with the larger absolute
coordinate delta, then divide. -/
def unlerpGuard (a b p : Pt) : Bool :=
  if |b.x - a.x| > |b.y - a.y| then fdivLt1 (p.x - a.x) (b.x - a.x)
  else fdivLt1 (p.y - a.y) (b.y - a.y)

/-- One `push_back` into bucket `i` of the bucket vector. -/
def pushAt : List (List ℕ) → ℕ → ℕ → List (List ℕ)
  | [], _, _ => []
  | bucket :: rest, 0, v => (bucket ++ [v]) :: rest
  | bucket :: rest, n + 1, v => bucket :: pushAt rest n v

/-- The grid after `items_[i].push_back(v)`. -/
def gridPush (g : Grid) (i : ℕ) (v : ℕ) : Grid :=
  { g with items := pushAt g.items i v }

/-- Possible outcomes of running `AddLineSegment` under a fuel bound:
the `assert` on the endpoints fired (process aborts, state unchanged), a
bucket access went outside the vector (undefined behavior in C++), the
fuel ran out with the loop guard still true, or the loop exited. -/
inductive AddOutcome where
  | aborted (g : Grid)
  | oobAccess (g : Grid)
  | running (g : Grid)
  | done (g : Grid)
deriving DecidableEq, Repr

/-- The outcome is an out-of-range bucket access. -/
def isOob : AddOutcome → Prop
  | .oobAccess _ => True
  | _ => False

/-- Embedding of the `while` loop of `GridRangeQuery::AddLineSegment`.
The loop state is `(current_point, items_)`; the body computes the cell
of `current_point`, pushes the identifier into
`items_[cell.first + cell.second * num_rows_]`, and — exactly as in the
source — never modifies `current_point`. -/
def addSegLoop (edgeid : ℕ) (start stop : Pt) : ℕ → Pt → Grid → AddOutcome
  | 0, _, g => .running g
  | n + 1, cur, g =>
    if unlerpGuard start stop cur then
      let cell := gridCoordinates g cur
      let idx : ℤ := cell.1 + cell.2 * (g.num_rows : ℤ)
      if 0 ≤ idx ∧ idx.toNat < g.items.length then
        addSegLoop edgeid start stop n cur (gridPush g idx.toNat edgeid)
      else .oobAccess g
    else .done g

/-- Embedding of `GridRangeQuery::AddLineSegment`: assert both endpoints
inside the box, then run the traversal loop from `segment.a()`. -/
def addLineSegment (g : Grid) (edgeid : ℕ) (s : Seg) (fuel : ℕ) : AddOutcome :=
  if bboxContains g.bbox s.a && bboxContains g.bbox s.b then
    addSegLoop edgeid s.a s.b fuel s.a g
  else .aborted g

/-- Modelled from the spec: the segment-segment intersection test of the
geometry primitives (`LineSegment2::Intersect`): report the intersection
point of the two segments when they properly intersect (parallel or
collinear pairs report no intersection).  Parametrically: with
`b = s1.b - s1.a`, `d = s2.b - s2.a`, `c = s2.a - s1.a`, solve
`t*b - u*d = c` by Cramer and require `t, u ∈ [0, 1]`; the reported
point is `s1.a + t*b`.  The determinant `segDtb` is the cross product of
the two direction vectors; it vanishes exactly for parallel pairs. -/
def segDtb (s1 s2 : Seg) : ℚ :=
  (s1.b.y - s1.a.y) * (s2.b.x - s2.a.x) - (s1.b.x - s1.a.x) * (s2.b.y - s2.a.y)

/-- The intersection parameter along `s1` (see `segIntersect`). -/
def segT (s1 s2 : Seg) : ℚ :=
  ((s2.b.x - s2.a.x) * (s2.a.y - s1.a.y) - (s2.b.y - s2.a.y) * (s2.a.x - s1.a.x))
    / segDtb s1 s2

/-- The intersection parameter along `s2` (see `segIntersect`). -/
def segU (s1 s2 : Seg) : ℚ :=
  ((s1.b.x - s1.a.x) * (s2.a.y - s1.a.y) - (s1.b.y - s1.a.y) * (s2.a.x - s1.a.x))
    / segDtb s1 s2

def segIntersect (s1 s2 : Seg) : Option Pt :=
  if segDtb s1 s2 = 0 then none
  else if 0 ≤ segT s1 s2 ∧ segT s1 s2 ≤ 1 ∧ 0 ≤ segU s1 s2 ∧ segU s1 s2 ≤ 1 then
    some ⟨s1.a.x + segT s1 s2 * (s1.b.x - s1.a.x),
          s1.a.y + segT s1 s2 * (s1.b.y - s1.a.y)⟩
  else none

/-- The four edges of cell `(i, j)` in source order: bottom `e1`, right
`e2`, top `e3`, left `e4`. -/
def cellEdges (g : Grid) (i j : ℤ) : List Seg :=
  let cell := cellBoundingBox g i j
  [ ⟨⟨cell.minx, cell.miny⟩, ⟨cell.maxx, cell.miny⟩⟩,
    ⟨⟨cell.maxx, cell.miny⟩, ⟨cell.maxx, cell.maxy⟩⟩,
    ⟨⟨cell.maxx, cell.maxy⟩, ⟨cell.minx, cell.maxy⟩⟩,
    ⟨⟨cell.minx, cell.maxy⟩, ⟨cell.minx, cell.miny⟩⟩ ]

/-- Embedding of `GridRangeQuery::CellLineSegmentIntersections`: test the
segment against the four cell edges in order and collect the successful
intersection points. -/
def cellLineSegmentIntersections (g : Grid) (i j : ℤ) (s : Seg) : List Pt :=
  let cell := cellBoundingBox g i j
  let e1 : Seg := ⟨⟨cell.minx, cell.miny⟩, ⟨cell.maxx, cell.miny⟩⟩
  let e2 : Seg := ⟨⟨cell.maxx, cell.miny⟩, ⟨cell.maxx, cell.maxy⟩⟩
  let e3 : Seg := ⟨⟨cell.maxx, cell.maxy⟩, ⟨cell.minx, cell.maxy⟩⟩
  let e4 : Seg := ⟨⟨cell.minx, cell.maxy⟩, ⟨cell.minx, cell.miny⟩⟩
  (segIntersect s e1).toList ++ (segIntersect s e2).toList ++
    (segIntersect s e3).toList ++ (segIntersect s e4).toList

/-- The segment lies on the line through one of the four edges of cell
`(i, j)`: both endpoints on the bottom, right, top or left edge line. -/
def collinearWithCellEdge (g : Grid) (i j : ℤ) (s : Seg) : Prop :=
  let cell := cellBoundingBox g i j
  (s.a.y = cell.miny ∧ s.b.y = cell.miny) ∨
  (s.a.x = cell.maxx ∧ s.b.x = cell.maxx) ∨
  (s.a.y = cell.maxy ∧ s.b.y = cell.maxy) ∨
  (s.a.x = cell.minx ∧ s.b.x = cell.minx)

instance (g : Grid) (i j : ℤ) (s : Seg) : Decidable (collinearWithCellEdge g i j s) := by
  unfold collinearWithCellEdge
  exact inferInstance

/-- The grid of the test harness: region `[0,100] × [0,100]` divided into
`100 × 100` unit cells. -/
def g100 : Grid := gridRangeQueryN ⟨0, 0, 100, 100⟩ 100 100

/-- The point of the segment line at parameter `t` (the line through
`(ax, ay)` with direction `(vx, vy)`) lies on the boundary of the box
`[x0, x1] × [y0, y1]`: on the bottom, right, top or left edge. -/
def EdgeHit (ax ay vx vy x0 x1 y0 y1 t : ℚ) : Prop :=
  (ay + t * vy = y0 ∧ x0 ≤ ax + t * vx ∧ ax + t * vx ≤ x1) ∨
  (ax + t * vx = x1 ∧ y0 ≤ ay + t * vy ∧ ay + t * vy ≤ y1) ∨
  (ay + t * vy = y1 ∧ x0 ≤ ax + t * vx ∧ ax + t * vx ≤ x1) ∨
  (ax + t * vx = x0 ∧ y0 ≤ ay + t * vy ∧ ay + t * vy ≤ y1)

/-! ## Helper lemmas -/

lemma cppInt_of_nonneg {q : ℚ} (h : 0 ≤ q) : cppInt q = ⌊q⌋ := if_pos h

lemma pushAt_length (l : List (List ℕ)) (i v : ℕ) : (pushAt l i v).length = l.length := by
  induction l generalizing i with
  | nil => rfl
  | cons bucket rest ih =>
    cases i with
    | zero => rfl
    | succ n => simpa [pushAt] using ih n

lemma gridPush_bbox (g : Grid) (i v : ℕ) : (gridPush g i v).bbox = g.bbox := rfl

lemma gridPush_cell_width (g : Grid) (i v : ℕ) :
    (gridPush g i v).cell_width = g.cell_width := rfl

lemma gridPush_cell_height (g : Grid) (i v : ℕ) :
    (gridPush g i v).cell_height = g.cell_height := rfl

lemma gridPush_num_rows (g : Grid) (i v : ℕ) : (gridPush g i v).num_rows = g.num_rows := rfl

lemma gridPush_items_length (g : Grid) (i v : ℕ) :
    (gridPush g i v).items.length = g.items.length := pushAt_length g.items i v

lemma gridCoordinates_gridPush (g : Grid) (i v : ℕ) (p : Pt) :
    gridCoordinates (gridPush g i v) p = gridCoordinates g p := rfl

/-- If the loop guard holds at the start point, the traversal loop of
`AddLineSegment` keeps the guard true forever: the body never modifies
`current_point`, so every iteration recomputes the same cell, pushes the
identifier into it, and re-tests the same guard. -/
lemma addSegLoop_runs_forever (edgeid : ℕ) (start stop : Pt)
    (hguard : unlerpGuard start stop start = true) :
    ∀ (n : ℕ) (g : Grid),
      0 ≤ (gridCoordinates g start).1 + (gridCoordinates g start).2 * (g.num_rows : ℤ) →
      ((gridCoordinates g start).1 + (gridCoordinates g start).2 * (g.num_rows : ℤ)).toNat
        < g.items.length →
      ∃ g2, addSegLoop edgeid start stop n start g = .running g2 := by
  intro n
  induction n with
  | zero => intro g _ _; exact ⟨g, rfl⟩
  | succ n ih =>
    intro g h1 h2
    have hcond : 0 ≤ (gridCoordinates g start).1 + (gridCoordinates g start).2 * (g.num_rows : ℤ)
        ∧ ((gridCoordinates g start).1 + (gridCoordinates g start).2 * (g.num_rows : ℤ)).toNat
          < g.items.length := ⟨h1, h2⟩
    have hstep : addSegLoop edgeid start stop (n + 1) start g =
        addSegLoop edgeid start stop n start
          (gridPush g ((gridCoordinates g start).1 +
            (gridCoordinates g start).2 * (g.num_rows : ℤ)).toNat edgeid) := by
      simp only [addSegLoop, hguard, if_true, if_pos hcond]
    rw [hstep]
    apply ih
    · rw [gridCoordinates_gridPush, gridPush_num_rows]; exact h1
    · rw [gridCoordinates_gridPush, gridPush_num_rows, gridPush_items_length]; exact h2

/-- The traversal loop never performs an out-of-range bucket access when
the (never-changing) current point indexes inside the bucket vector. -/
lemma addSegLoop_no_oob (edgeid : ℕ) (start stop cur : Pt) :
    ∀ (n : ℕ) (g : Grid),
      0 ≤ (gridCoordinates g cur).1 + (gridCoordinates g cur).2 * (g.num_rows : ℤ) →
      ((gridCoordinates g cur).1 + (gridCoordinates g cur).2 * (g.num_rows : ℤ)).toNat
        < g.items.length →
      ¬ isOob (addSegLoop edgeid start stop n cur g) := by
  intro n
  induction n with
  | zero => intro g _ _ h; exact h
  | succ n ih =>
    intro g h1 h2
    by_cases hg : unlerpGuard start stop cur = true
    · have hcond : 0 ≤ (gridCoordinates g cur).1 + (gridCoordinates g cur).2 * (g.num_rows : ℤ)
          ∧ ((gridCoordinates g cur).1 + (gridCoordinates g cur).2 * (g.num_rows : ℤ)).toNat
            < g.items.length := ⟨h1, h2⟩
      have hstep : addSegLoop edgeid start stop (n + 1) cur g =
          addSegLoop edgeid start stop n cur
            (gridPush g ((gridCoordinates g cur).1 +
              (gridCoordinates g cur).2 * (g.num_rows : ℤ)).toNat edgeid) := by
        simp only [addSegLoop, hg, if_true, if_pos hcond]
      rw [hstep]
      apply ih
      · rw [gridCoordinates_gridPush, gridPush_num_rows]; exact h1
      · rw [gridCoordinates_gridPush, gridPush_num_rows, gridPush_items_length]; exact h2
    · have hstep : addSegLoop edgeid start stop (n + 1) cur g = .done g := by
        simp only [addSegLoop, hg]
        simp
      rw [hstep]
      exact fun h => h

/-- Grid coordinates of a point at or beyond the region minimum are the
floors of the scaled offsets (truncation toward zero agrees with floor on
nonnegative arguments). -/
lemma gridCoordinates_eq_floor (g : Grid) (p : Pt)
    (hx : g.bbox.minx ≤ p.x) (hy : g.bbox.miny ≤ p.y)
    (hw : 0 < g.cell_width) (hh : 0 < g.cell_height) :
    gridCoordinates g p =
      (⌊(p.x - g.bbox.minx) / g.cell_width⌋, ⌊(p.y - g.bbox.miny) / g.cell_height⌋) := by
  unfold gridCoordinates
  rw [cppInt_of_nonneg (div_nonneg (sub_nonneg.mpr hx) hw.le),
      cppInt_of_nonneg (div_nonneg (sub_nonneg.mpr hy) hh.le)]

lemma floor_scaled_lower {q w : ℚ} (hw : 0 < w) : (⌊q / w⌋ : ℚ) * w ≤ q := by
  rw [← le_div_iff hw]
  exact Int.floor_le _

lemma floor_scaled_upper {q w : ℚ} (hw : 0 < w) : q < ((⌊q / w⌋ : ℚ) + 1) * w := by
  rw [← div_lt_iff hw]
  exact Int.lt_floor_add_one _

/-- The floor of a scaled offset that stays strictly below the full
extent is strictly below the ceiling count of the extent. -/
lemma floor_lt_ceil_of_lt {q e w : ℚ} (hw : 0 < w) (hqe : q < e) :
    ⌊q / w⌋ < ⌈e / w⌉ := by
  have h1 : (⌊q / w⌋ : ℚ) ≤ q / w := Int.floor_le _
  have h2 : q / w < e / w := (div_lt_div_right hw).mpr hqe
  have h3 : e / w ≤ (⌈e / w⌉ : ℚ) := Int.le_ceil _
  exact_mod_cast lt_of_le_of_lt h1 (lt_of_lt_of_le h2 h3)

lemma four_toList_eq_filterMap {α β : Type} (f : α → Option β) (a b c d : α) :
    (f a).toList ++ (f b).toList ++ (f c).toList ++ (f d).toList =
      List.filterMap f [a, b, c, d] := by
  cases ha : f a <;> cases hb : f b <;> cases hc : f c <;> cases hd : f d <;>
    simp [List.filterMap_cons, ha, hb, hc, hd]

lemma mem_four_toList {α β : Type} {f : α → Option β} {a b c d : α} {p : β}
    (h : p ∈ (f a).toList ++ (f b).toList ++ (f c).toList ++ (f d).toList) :
    f a = some p ∨ f b = some p ∨ f c = some p ∨ f d = some p := by
  cases ha : f a <;> cases hb : f b <;> cases hc : f c <;> cases hd : f d <;>
    rw [ha, hb, hc, hd] at h <;> simp_all [Option.toList] <;> tauto

/-- The structural content of `CellLineSegmentIntersections`: it is the
filterMap of the intersection test over the four cell edges in source
order. -/
lemma cellIntersections_eq_filterMap (g : Grid) (i j : ℤ) (s : Seg) :
    cellLineSegmentIntersections g i j s = (cellEdges g i j).filterMap (segIntersect s) := by
  unfold cellLineSegmentIntersections cellEdges
  exact four_toList_eq_filterMap _ _ _ _ _

/-- Characterization of a successful intersection test: both parameters
lie in `[0, 1]` and the reported point is on both segments (in
parametric form). -/
lemma segIntersect_some {s1 s2 : Seg} {p : Pt} (h : segIntersect s1 s2 = some p) :
    ∃ t u : ℚ, 0 ≤ t ∧ t ≤ 1 ∧ 0 ≤ u ∧ u ≤ 1 ∧
    p.x = s1.a.x + t * (s1.b.x - s1.a.x) ∧
    p.y = s1.a.y + t * (s1.b.y - s1.a.y) ∧
    p.x = s2.a.x + u * (s2.b.x - s2.a.x) ∧
    p.y = s2.a.y + u * (s2.b.y - s2.a.y) := by
  unfold segIntersect at h
  split at h
  next => exact Option.noConfusion h
  next hd =>
    split at h
    next hc =>
      obtain ⟨ht0, ht1, hu0, hu1⟩ := hc
      injection h with h2
      subst h2
      refine ⟨segT s1 s2, segU s1 s2, ht0, ht1, hu0, hu1, rfl, rfl, ?_, ?_⟩
      · show s1.a.x + segT s1 s2 * (s1.b.x - s1.a.x)
          = s2.a.x + segU s1 s2 * (s2.b.x - s2.a.x)
        unfold segT segU segDtb at *
        field_simp
        ring
      · show s1.a.y + segT s1 s2 * (s1.b.y - s1.a.y)
          = s2.a.y + segU s1 s2 * (s2.b.y - s2.a.y)
        unfold segT segU segDtb at *
        field_simp
        ring
    next => exact Option.noConfusion h

/-- A value of the form `lo + u * (hi - lo)` with `u ∈ [0, 1]` lies in
`[lo, hi]`. -/
lemma unit_interval_affine {u lo hi v : ℚ} (h0 : 0 ≤ u) (h1 : u ≤ 1) (hlo : lo ≤ hi)
    (hv : v = lo + u * (hi - lo)) : lo ≤ v ∧ v ≤ hi := by
  constructor <;> nlinarith

/-- Two distinct parameters of a nonconstant-or-displaced affine map
cannot hit the same level: hitting the same level twice forces the
direction component to vanish and the base point to sit on the level. -/
lemma same_level_kill (a v L t t' : ℚ) (hne : t ≠ t') (h : a + t * v = L)
    (h' : a + t' * v = L) (hn : ¬ (v = 0 ∧ a = L)) : False := by
  have hv : (t - t') * v = 0 := by linear_combination h - h'
  have hv0 : v = 0 := by
    rcases mul_eq_zero.mp hv with h0 | h0
    · exact absurd (by linarith : t = t') hne
    · exact h0
  refine hn ⟨hv0, ?_⟩
  rw [hv0, mul_zero, add_zero] at h
  exact h

/-- A point strictly between two parameters whose values stay inside
`[lo2, hi2]` cannot itself sit on an end of that range unless the
coordinate is constant and pinned there. -/
lemma between_strict_extreme {b w lo2 hi2 p q u : ℚ}
    (hpu : p < u) (huq : u < q)
    (hpg : lo2 ≤ b + p * w) (hpg2 : b + p * w ≤ hi2)
    (hqg : lo2 ≤ b + q * w) (hqg2 : b + q * w ≤ hi2)
    (h3 : b + u * w = lo2 ∨ b + u * w = hi2)
    (ncl : ¬ (w = 0 ∧ b = lo2)) (nch : ¬ (w = 0 ∧ b = hi2)) : False := by
  rcases lt_trichotomy w 0 with hw | hw | hw
  · rcases h3 with h | h
    · have hkey : (q - u) * w < 0 := mul_neg_of_pos_of_neg (by linarith) hw
      nlinarith
    · have hkey : (u - p) * w < 0 := mul_neg_of_pos_of_neg (by linarith) hw
      nlinarith
  · subst hw
    rcases h3 with h | h
    · exact ncl ⟨rfl, by linarith⟩
    · exact nch ⟨rfl, by linarith⟩
  · rcases h3 with h | h
    · have hkey : (u - p) * w > 0 := mul_pos (by linarith) hw
      nlinarith
    · have hkey : (q - u) * w > 0 := mul_pos (by linarith) hw
      nlinarith

/-- Core geometric fact: an affine line cannot hit the level `lo` and
the level `hi` of one coordinate and additionally an extreme level of
the other coordinate at a third distinct parameter whose first
coordinate stays in `[lo, hi]` — unless the other coordinate is constant
and pinned to that extreme (collinearity with a box edge). -/
lemma cross_pair_core (a v b w lo hi lo2 hi2 s t u : ℚ)
    (hlh : lo < hi)
    (h1 : a + s * v = lo) (h1g : lo2 ≤ b + s * w) (h1g2 : b + s * w ≤ hi2)
    (h2 : a + t * v = hi) (h2g : lo2 ≤ b + t * w) (h2g2 : b + t * w ≤ hi2)
    (h3 : b + u * w = lo2 ∨ b + u * w = hi2)
    (h3f : lo ≤ a + u * v) (h3f2 : a + u * v ≤ hi)
    (hus : u ≠ s) (hut : u ≠ t)
    (ncl : ¬ (w = 0 ∧ b = lo2)) (nch : ¬ (w = 0 ∧ b = hi2)) : False := by
  have hv1 : (t - s) * v = hi - lo := by linear_combination h2 - h1
  have hv2 : (u - s) * v = (a + u * v) - lo := by linear_combination - h1
  have hv3 : (t - u) * v = hi - (a + u * v) := by linear_combination h2
  have hsu : 0 ≤ (u - s) * v := by rw [hv2]; linarith
  have htu : 0 ≤ (t - u) * v := by rw [hv3]; linarith
  have hst : 0 < (t - s) * v := by rw [hv1]; linarith
  rcases lt_trichotomy v 0 with hv | hv | hv
  · have hle1 : u ≤ s := by
      by_contra hcon
      push_neg at hcon
      have : (u - s) * v < 0 := mul_neg_of_pos_of_neg (by linarith) hv
      linarith
    have hle2 : t ≤ u := by
      by_contra hcon
      push_neg at hcon
      have : (t - u) * v < 0 := mul_neg_of_pos_of_neg (by linarith) hv
      linarith
    exact between_strict_extreme (lt_of_le_of_ne hle2 (Ne.symm hut))
      (lt_of_le_of_ne hle1 hus) h2g h2g2 h1g h1g2 h3 ncl nch
  · rw [hv, mul_zero] at hst
    exact absurd hst (lt_irrefl 0)
  · have hle1 : s ≤ u := by
      by_contra hcon
      push_neg at hcon
      have : (u - s) * v < 0 := mul_neg_of_neg_of_pos (by linarith) hv
      linarith
    have hle2 : u ≤ t := by
      by_contra hcon
      push_neg at hcon
      have : (t - u) * v < 0 := mul_neg_of_neg_of_pos (by linarith) hv
      linarith
    exact between_strict_extreme (lt_of_le_of_ne hle1 (Ne.symm hus))
      (lt_of_le_of_ne hle2 hut) h1g h1g2 h2g h2g2 h3 ncl nch

/-- A line not collinear with any edge line of the box hits the box
boundary at no more than two distinct parameters: any three pairwise
distinct parameters hitting edges are contradictory. -/
lemma no_three_hits (ax ay vx vy x0 x1 y0 y1 t1 t2 t3 : ℚ)
    (hx : x0 < x1) (hy : y0 < y1)
    (nb : ¬ (vy = 0 ∧ ay = y0)) (nt : ¬ (vy = 0 ∧ ay = y1))
    (nl : ¬ (vx = 0 ∧ ax = x0)) (nr : ¬ (vx = 0 ∧ ax = x1))
    (h12 : t1 ≠ t2) (h13 : t1 ≠ t3) (h23 : t2 ≠ t3)
    (e1 : EdgeHit ax ay vx vy x0 x1 y0 y1 t1)
    (e2 : EdgeHit ax ay vx vy x0 x1 y0 y1 t2)
    (e3 : EdgeHit ax ay vx vy x0 x1 y0 y1 t3) : False := by
  have h21 : t2 ≠ t1 := Ne.symm h12
  have h31 : t3 ≠ t1 := Ne.symm h13
  have h32 : t3 ≠ t2 := Ne.symm h23
  rcases e1 with h1 | h1 | h1 | h1 <;> rcases e2 with h2 | h2 | h2 | h2 <;>
    rcases e3 with h3 | h3 | h3 | h3 <;>
    first
    | exact same_level_kill ay vy y0 t1 t2 h12 h1.1 h2.1 nb
    | exact same_level_kill ay vy y0 t1 t3 h13 h1.1 h3.1 nb
    | exact same_level_kill ay vy y0 t2 t3 h23 h2.1 h3.1 nb
    | exact same_level_kill ay vy y1 t1 t2 h12 h1.1 h2.1 nt
    | exact same_level_kill ay vy y1 t1 t3 h13 h1.1 h3.1 nt
    | exact same_level_kill ay vy y1 t2 t3 h23 h2.1 h3.1 nt
    | exact same_level_kill ax vx x0 t1 t2 h12 h1.1 h2.1 nl
    | exact same_level_kill ax vx x0 t1 t3 h13 h1.1 h3.1 nl
    | exact same_level_kill ax vx x0 t2 t3 h23 h2.1 h3.1 nl
    | exact same_level_kill ax vx x1 t1 t2 h12 h1.1 h2.1 nr
    | exact same_level_kill ax vx x1 t1 t3 h13 h1.1 h3.1 nr
    | exact same_level_kill ax vx x1 t2 t3 h23 h2.1 h3.1 nr
    | exact cross_pair_core ay vy ax vx y0 y1 x0 x1 t1 t2 t3 hy h1.1 h1.2.1 h1.2.2
        h2.1 h2.2.1 h2.2.2 (Or.inl h3.1) h3.2.1 h3.2.2 h31 h32 nl nr
    | exact cross_pair_core ay vy ax vx y0 y1 x0 x1 t1 t2 t3 hy h1.1 h1.2.1 h1.2.2
        h2.1 h2.2.1 h2.2.2 (Or.inr h3.1) h3.2.1 h3.2.2 h31 h32 nl nr
    | exact cross_pair_core ay vy ax vx y0 y1 x0 x1 t2 t1 t3 hy h2.1 h2.2.1 h2.2.2
        h1.1 h1.2.1 h1.2.2 (Or.inl h3.1) h3.2.1 h3.2.2 h32 h31 nl nr
    | exact cross_pair_core ay vy ax vx y0 y1 x0 x1 t2 t1 t3 hy h2.1 h2.2.1 h2.2.2
        h1.1 h1.2.1 h1.2.2 (Or.inr h3.1) h3.2.1 h3.2.2 h32 h31 nl nr
    | exact cross_pair_core ay vy ax vx y0 y1 x0 x1 t1 t3 t2 hy h1.1 h1.2.1 h1.2.2
        h3.1 h3.2.1 h3.2.2 (Or.inl h2.1) h2.2.1 h2.2.2 h21 h23 nl nr
    | exact cross_pair_core ay vy ax vx y0 y1 x0 x1 t1 t3 t2 hy h1.1 h1.2.1 h1.2.2
        h3.1 h3.2.1 h3.2.2 (Or.inr h2.1) h2.2.1 h2.2.2 h21 h23 nl nr
    | exact cross_pair_core ay vy ax vx y0 y1 x0 x1 t3 t1 t2 hy h3.1 h3.2.1 h3.2.2
        h1.1 h1.2.1 h1.2.2 (Or.inl h2.1) h2.2.1 h2.2.2 h23 h21 nl nr
    | exact cross_pair_core ay vy ax vx y0 y1 x0 x1 t3 t1 t2 hy h3.1 h3.2.1 h3.2.2
        h1.1 h1.2.1 h1.2.2 (Or.inr h2.1) h2.2.1 h2.2.2 h23 h21 nl nr
    | exact cross_pair_core ay vy ax vx y0 y1 x0 x1 t2 t3 t1 hy h2.1 h2.2.1 h2.2.2
        h3.1 h3.2.1 h3.2.2 (Or.inl h1.1) h1.2.1 h1.2.2 h12 h13 nl nr
    | exact cross_pair_core ay vy ax vx y0 y1 x0 x1 t2 t3 t1 hy h2.1 h2.2.1 h2.2.2
        h3.1 h3.2.1 h3.2.2 (Or.inr h1.1) h1.2.1 h1.2.2 h12 h13 nl nr
    | exact cross_pair_core ay vy ax vx y0 y1 x0 x1 t3 t2 t1 hy h3.1 h3.2.1 h3.2.2
        h2.1 h2.2.1 h2.2.2 (Or.inl h1.1) h1.2.1 h1.2.2 h13 h12 nl nr
    | exact cross_pair_core ay vy ax vx y0 y1 x0 x1 t3 t2 t1 hy h3.1 h3.2.1 h3.2.2
        h2.1 h2.2.1 h2.2.2 (Or.inr h1.1) h1.2.1 h1.2.2 h13 h12 nl nr
    | exact cross_pair_core ax vx ay vy x0 x1 y0 y1 t1 t2 t3 hx h1.1 h1.2.1 h1.2.2
        h2.1 h2.2.1 h2.2.2 (Or.inl h3.1) h3.2.1 h3.2.2 h31 h32 nb nt
    | exact cross_pair_core ax vx ay vy x0 x1 y0 y1 t1 t2 t3 hx h1.1 h1.2.1 h1.2.2
        h2.1 h2.2.1 h2.2.2 (Or.inr h3.1) h3.2.1 h3.2.2 h31 h32 nb nt
    | exact cross_pair_core ax vx ay vy x0 x1 y0 y1 t2 t1 t3 hx h2.1 h2.2.1 h2.2.2
        h1.1 h1.2.1 h1.2.2 (Or.inl h3.1) h3.2.1 h3.2.2 h32 h31 nb nt
    | exact cross_pair_core ax vx ay vy x0 x1 y0 y1 t2 t1 t3 hx h2.1 h2.2.1 h2.2.2
        h1.1 h1.2.1 h1.2.2 (Or.inr h3.1) h3.2.1 h3.2.2 h32 h31 nb nt
    | exact cross_pair_core ax vx ay vy x0 x1 y0 y1 t1 t3 t2 hx h1.1 h1.2.1 h1.2.2
        h3.1 h3.2.1 h3.2.2 (Or.inl h2.1) h2.2.1 h2.2.2 h21 h23 nb nt
    | exact cross_pair_core ax vx ay vy x0 x1 y0 y1 t1 t3 t2 hx h1.1 h1.2.1 h1.2.2
        h3.1 h3.2.1 h3.2.2 (Or.inr h2.1) h2.2.1 h2.2.2 h21 h23 nb nt
    | exact cross_pair_core ax vx ay vy x0 x1 y0 y1 t3 t1 t2 hx h3.1 h3.2.1 h3.2.2
        h1.1 h1.2.1 h1.2.2 (Or.inl h2.1) h2.2.1 h2.2.2 h23 h21 nb nt
    | exact cross_pair_core ax vx ay vy x0 x1 y0 y1 t3 t1 t2 hx h3.1 h3.2.1 h3.2.2
        h1.1 h1.2.1 h1.2.2 (Or.inr h2.1) h2.2.1 h2.2.2 h23 h21 nb nt
    | exact cross_pair_core ax vx ay vy x0 x1 y0 y1 t2 t3 t1 hx h2.1 h2.2.1 h2.2.2
        h3.1 h3.2.1 h3.2.2 (Or.inl h1.1) h1.2.1 h1.2.2 h12 h13 nb nt
    | exact cross_pair_core ax vx ay vy x0 x1 y0 y1 t2 t3 t1 hx h2.1 h2.2.1 h2.2.2
        h3.1 h3.2.1 h3.2.2 (Or.inr h1.1) h1.2.1 h1.2.2 h12 h13 nb nt
    | exact cross_pair_core ax vx ay vy x0 x1 y0 y1 t3 t2 t1 hx h3.1 h3.2.1 h3.2.2
        h2.1 h2.2.1 h2.2.2 (Or.inl h1.1) h1.2.1 h1.2.2 h13 h12 nb nt
    | exact cross_pair_core ax vx ay vy x0 x1 y0 y1 t3 t2 t1 hx h3.1 h3.2.1 h3.2.2
        h2.1 h2.2.1 h2.2.2 (Or.inr h1.1) h1.2.1 h1.2.2 h13 h12 nb nt

/-- Every collected intersection point lies on the segment line (in
parametric form) and on one of the four cell edges. -/
lemma mem_cellIntersections (g : Grid) (i j : ℤ) (s : Seg) (p : Pt)
    (hw : 0 < g.cell_width) (hh : 0 < g.cell_height)
    (hmem : p ∈ cellLineSegmentIntersections g i j s) :
    ∃ t : ℚ, p.x = s.a.x + t * (s.b.x - s.a.x) ∧ p.y = s.a.y + t * (s.b.y - s.a.y) ∧
      EdgeHit s.a.x s.a.y (s.b.x - s.a.x) (s.b.y - s.a.y)
        (cellBoundingBox g i j).minx (cellBoundingBox g i j).maxx
        (cellBoundingBox g i j).miny (cellBoundingBox g i j).maxy t := by
  have hx01 : (cellBoundingBox g i j).maxx - (cellBoundingBox g i j).minx
      = g.cell_width := by
    unfold cellBoundingBox
    push_cast
    ring
  have hy01 : (cellBoundingBox g i j).maxy - (cellBoundingBox g i j).miny
      = g.cell_height := by
    unfold cellBoundingBox
    push_cast
    ring
  unfold cellLineSegmentIntersections at hmem
  rcases mem_four_toList hmem with h | h | h | h
  · -- bottom edge
    obtain ⟨t, u, ht0, ht1, hu0, hu1, hpx, hpy, hqx, hqy⟩ := segIntersect_some h
    dsimp only at hqx hqy
    refine ⟨t, hpx, hpy, Or.inl ⟨?_, ?_, ?_⟩⟩
    · rw [← hpy, hqy]
      ring
    · rw [← hpx]
      exact (unit_interval_affine hu0 hu1 (by linarith) hqx).1
    · rw [← hpx]
      exact (unit_interval_affine hu0 hu1 (by linarith) hqx).2
  · -- right edge
    obtain ⟨t, u, ht0, ht1, hu0, hu1, hpx, hpy, hqx, hqy⟩ := segIntersect_some h
    dsimp only at hqx hqy
    refine ⟨t, hpx, hpy, Or.inr (Or.inl ⟨?_, ?_, ?_⟩)⟩
    · rw [← hpx, hqx]
      ring
    · rw [← hpy]
      exact (unit_interval_affine hu0 hu1 (by linarith) hqy).1
    · rw [← hpy]
      exact (unit_interval_affine hu0 hu1 (by linarith) hqy).2
  · -- top edge, traversed from maxx to minx
    obtain ⟨t, u, ht0, ht1, hu0, hu1, hpx, hpy, hqx, hqy⟩ := segIntersect_some h
    dsimp only at hqx hqy
    refine ⟨t, hpx, hpy, Or.inr (Or.inr (Or.inl ⟨?_, ?_, ?_⟩))⟩
    · rw [← hpy, hqy]
      ring
    · have hb : p.x = (cellBoundingBox g i j).minx + (1 - u) *
          ((cellBoundingBox g i j).maxx - (cellBoundingBox g i j).minx) := by
        rw [hqx]
        ring
      rw [← hpx]
      exact (unit_interval_affine (by linarith) (by linarith) (by linarith) hb).1
    · have hb : p.x = (cellBoundingBox g i j).minx + (1 - u) *
          ((cellBoundingBox g i j).maxx - (cellBoundingBox g i j).minx) := by
        rw [hqx]
        ring
      rw [← hpx]
      exact (unit_interval_affine (by linarith) (by linarith) (by linarith) hb).2
  · -- left edge, traversed from maxy to miny
    obtain ⟨t, u, ht0, ht1, hu0, hu1, hpx, hpy, hqx, hqy⟩ := segIntersect_some h
    dsimp only at hqx hqy
    refine ⟨t, hpx, hpy, Or.inr (Or.inr (Or.inr ⟨?_, ?_, ?_⟩))⟩
    · rw [← hpx, hqx]
      ring
    · have hb : p.y = (cellBoundingBox g i j).miny + (1 - u) *
          ((cellBoundingBox g i j).maxy - (cellBoundingBox g i j).miny) := by
        rw [hqy]
        ring
      rw [← hpy]
      exact (unit_interval_affine (by linarith) (by linarith) (by linarith) hb).1
    · have hb : p.y = (cellBoundingBox g i j).miny + (1 - u) *
          ((cellBoundingBox g i j).maxy - (cellBoundingBox g i j).miny) := by
        rw [hqy]
        ring
      rw [← hpy]
      exact (unit_interval_affine (by linarith) (by linarith) (by linarith) hb).2

/-- Concrete normal form of the test-harness grid: unit cells, `100`
cells in each direction, `10000` empty buckets. -/
lemma g100_eq :
    g100 = Grid.mk ⟨0, 0, 100, 100⟩ 1 1 100 100 (List.replicate 10000 []) := by
  norm_num [g100, gridRangeQueryN, initGrid, BBox.width, BBox.height]
  decide

/-! ## Claim theorems -/

/-- C3: the implemented `Query` ignores both the stored buckets and the
range and returns the empty collection for every input. -/
theorem query_always_empty (g : Grid) (range : BBox) : query g range = [] := rfl

/-- C2 (refuted, code bug): after any insertion history whatsoever, a
query whose box equals the bounding box of cell `(2, 3)` — a cell the
segment `(2.5, 3.5)-(10, 3.5)` passes through — never returns the
inserted identifier `7`, because `Query` is a stub returning the empty
vector: the no-false-negatives property fails. -/
theorem query_has_false_negatives (g : Grid) :
    (7 : ℕ) ∉ query g (cellBoundingBox g100 2 3) := by
  simp [query]

/-- C1 (refuted, code bug): inserting the segment `(0.5, 3)-(2.5, 3)`,
whose endpoints both lie exactly on the shared grid line `y = 3` of the
`100 × 100` unit-cell grid, never terminates: for every fuel bound the
loop is still running, because the body never advances `current_point`,
so the parametric position `t` stays `0` on every iteration instead of
strictly increasing. -/
theorem addLineSegment_never_terminates (fuel : ℕ) :
    ∃ g2, addLineSegment g100 0 ⟨⟨1/2, 3⟩, ⟨5/2, 3⟩⟩ fuel = .running g2 := by
  have hc : (bboxContains g100.bbox (⟨1/2, 3⟩ : Pt) &&
      bboxContains g100.bbox (⟨5/2, 3⟩ : Pt)) = true := by
    rw [g100_eq]; unfold bboxContains; norm_num
  have hguard : unlerpGuard ⟨1/2, 3⟩ ⟨5/2, 3⟩ ⟨1/2, 3⟩ = true := by
    unfold unlerpGuard fdivLt1; norm_num
  unfold addLineSegment
  rw [hc]
  simp only [if_true]
  apply addSegLoop_runs_forever _ _ _ hguard
  · rw [g100_eq]
    norm_num [gridCoordinates, cppInt]
  · rw [g100_eq]
    norm_num [gridCoordinates, cppInt, List.length_replicate]

/-- C4 (refuted, code bug): a segment with an endpoint outside the region
makes `AddLineSegment` fire its `assert` — the process aborts before any
bucket is touched.  No `SegmentOutOfBounds` result value exists anywhere
in the implementation; the operation is a crash, not a recoverable
`Result`. -/
theorem addLineSegment_out_of_bounds_aborts (fuel : ℕ) :
    addLineSegment g100 1 ⟨⟨-1, -1⟩, ⟨1, 1⟩⟩ fuel = .aborted g100 := by
  have hc : (bboxContains g100.bbox (⟨-1, -1⟩ : Pt) &&
      bboxContains g100.bbox (⟨1, 1⟩ : Pt)) = false := by
    rw [g100_eq]; unfold bboxContains; norm_num
  unfold addLineSegment
  rw [hc]
  simp

/-- C5 (refuted, code bug): inserting the zero-length segment at
`(5.5, 5.5)` terminates immediately but records the identifier `9` in
no bucket at all (the grid is returned unchanged), because the loop
guard computes `0/0` — IEEE NaN — and `NaN < 1.0` is false before the
first iteration; the claim requires exactly one bucket (cell `(5, 5)`)
to receive the identifier. -/
theorem addLineSegment_degenerate_records_nothing (fuel : ℕ) :
    addLineSegment g100 9 ⟨⟨11/2, 11/2⟩, ⟨11/2, 11/2⟩⟩ (fuel + 1) = .done g100 := by
  have hc : (bboxContains g100.bbox (⟨11/2, 11/2⟩ : Pt) &&
      bboxContains g100.bbox (⟨11/2, 11/2⟩ : Pt)) = true := by
    rw [g100_eq]; unfold bboxContains; norm_num
  have hguard : unlerpGuard ⟨11/2, 11/2⟩ ⟨11/2, 11/2⟩ ⟨11/2, 11/2⟩ = false := by
    unfold unlerpGuard fdivLt1; norm_num
  unfold addLineSegment
  rw [hc]
  simp only [if_true, addSegLoop, hguard]
  simp

/-- C6 (counterexample): the point `(100, 50)` lies exactly on the upper
x-bound of the `[0,100] × [0,100]` region, but `GridCoordinates` returns
x-index `100`, which is not the last valid x-index: the grid has `100`
cells per row (indices `0` to `99`, with `num_rows_` the x-direction cell
count used as the indexing stride), so the result is a nonexistent cell
rather than a clamped one. -/
theorem gridCoordinates_no_clamp_counterexample :
    gridCoordinates g100 ⟨100, 50⟩ = (100, 50) ∧
      ¬ (gridCoordinates g100 ⟨100, 50⟩).1 < (g100.num_rows : ℤ) := by
  rw [g100_eq]
  unfold gridCoordinates cppInt
  norm_num

/-- C6 (amended): for every point whose coordinates are at least the
region minimum — including points on or beyond the upper bounds, which
are not clamped — `GridCoordinates` returns exactly the floor formula
`(⌊(p.x - minX)/cellWidth⌋, ⌊(p.y - minY)/cellHeight⌋)`. -/
theorem gridCoordinates_is_floor (g : Grid) (p : Pt)
    (hx : g.bbox.minx ≤ p.x) (hy : g.bbox.miny ≤ p.y)
    (hw : 0 < g.cell_width) (hh : 0 < g.cell_height) :
    gridCoordinates g p =
      (⌊(p.x - g.bbox.minx) / g.cell_width⌋, ⌊(p.y - g.bbox.miny) / g.cell_height⌋) :=
  gridCoordinates_eq_floor g p hx hy hw hh

/-- Witness for the amended C6 theorem at the concrete scenario of the
source tests: `cellOf((12.5, 13.7))` on the unit-cell grid is `(12, 13)`,
matching the floor formula. -/
theorem gridCoordinates_is_floor_witness :
    gridCoordinates g100 ⟨25/2, 137/10⟩ =
      (⌊((25/2 : ℚ) - g100.bbox.minx) / g100.cell_width⌋,
       ⌊((137/10 : ℚ) - g100.bbox.miny) / g100.cell_height⌋) :=
  gridCoordinates_is_floor g100 ⟨25/2, 137/10⟩
    (by rw [g100_eq]; norm_num) (by rw [g100_eq]; norm_num)
    (by rw [g100_eq]; norm_num) (by rw [g100_eq]; norm_num)

/-- C7 (counterexample): on the region `[0,10] × [0,4]` with unit cells,
`Init` sets `num_cols_` to `4`, not to `ceil(width / cellWidth) = 10`:
the width and height formulas are swapped between the two count
members. -/
theorem init_swapped_counts_counterexample :
    (initGrid ⟨0, 0, 10, 4⟩ 1 1).num_cols = 4 ∧
      (⌈(BBox.width ⟨0, 0, 10, 4⟩) / 1⌉).toNat = 10 ∧ (4 : ℕ) ≠ 10 := by
  unfold initGrid BBox.width BBox.height
  norm_num
  decide

/-- C7 (amended): after construction with strictly positive cell
dimensions, `num_rows_` equals `ceil(width / cellWidth)` and `num_cols_`
equals `ceil(height / cellHeight)` — the member names are swapped
relative to the formulas the claim assigns them — and the bucket vector
holds exactly `num_cols_ * num_rows_` cells, consistently indexed by
`column + row * num_rows_` (the stride `num_rows_` being the x-direction
cell count). -/
theorem init_counts_and_bucket_size (bbox : BBox) (cw ch : ℚ)
    (hcw : 0 < cw) (hch : 0 < ch) :
    (initGrid bbox cw ch).num_rows = (⌈bbox.width / cw⌉).toNat ∧
    (initGrid bbox cw ch).num_cols = (⌈bbox.height / ch⌉).toNat ∧
    (initGrid bbox cw ch).items.length =
      (initGrid bbox cw ch).num_cols * (initGrid bbox cw ch).num_rows := by
  refine ⟨rfl, rfl, ?_⟩
  simp [initGrid]

/-- Witness for the amended C7 theorem on the `[0,10] × [0,4]` region
with unit cells. -/
theorem init_counts_and_bucket_size_witness :
    (0 : ℚ) < 1 ∧
    ((initGrid ⟨0, 0, 10, 4⟩ 1 1).num_rows = (⌈(BBox.width ⟨0, 0, 10, 4⟩) / 1⌉).toNat ∧
     (initGrid ⟨0, 0, 10, 4⟩ 1 1).num_cols = (⌈(BBox.height ⟨0, 0, 10, 4⟩) / 1⌉).toNat ∧
     (initGrid ⟨0, 0, 10, 4⟩ 1 1).items.length =
       (initGrid ⟨0, 0, 10, 4⟩ 1 1).num_cols * (initGrid ⟨0, 0, 10, 4⟩ 1 1).num_rows) :=
  ⟨by norm_num, init_counts_and_bucket_size ⟨0, 0, 10, 4⟩ 1 1 (by norm_num) (by norm_num)⟩

/-- C8 (confirmed): for every point inside the region (cell dimensions
positive), the bounding box of the cell returned by `GridCoordinates`
contains the point. -/
theorem cell_box_round_trip (g : Grid) (p : Pt)
    (hw : 0 < g.cell_width) (hh : 0 < g.cell_height)
    (hx1 : g.bbox.minx ≤ p.x) (hx2 : p.x ≤ g.bbox.maxx)
    (hy1 : g.bbox.miny ≤ p.y) (hy2 : p.y ≤ g.bbox.maxy) :
    bboxContains (cellBoundingBox g (gridCoordinates g p).1 (gridCoordinates g p).2) p
      = true := by
  rw [gridCoordinates_eq_floor g p hx1 hy1 hw hh]
  unfold bboxContains cellBoundingBox
  simp only [Bool.and_eq_true, decide_eq_true_eq]
  have hxl : (⌊(p.x - g.bbox.minx) / g.cell_width⌋ : ℚ) * g.cell_width
      ≤ p.x - g.bbox.minx := floor_scaled_lower hw
  have hxu : p.x - g.bbox.minx
      < ((⌊(p.x - g.bbox.minx) / g.cell_width⌋ : ℚ) + 1) * g.cell_width :=
    floor_scaled_upper hw
  have hyl : (⌊(p.y - g.bbox.miny) / g.cell_height⌋ : ℚ) * g.cell_height
      ≤ p.y - g.bbox.miny := floor_scaled_lower hh
  have hyu : p.y - g.bbox.miny
      < ((⌊(p.y - g.bbox.miny) / g.cell_height⌋ : ℚ) + 1) * g.cell_height :=
    floor_scaled_upper hh
  refine ⟨⟨⟨?_, ?_⟩, ?_⟩, ?_⟩ <;> push_cast <;> linarith

/-- Witness for C8 at the concrete scenario `(12.5, 13.7)` on the
unit-cell grid. -/
theorem cell_box_round_trip_witness :
    bboxContains
      (cellBoundingBox g100 (gridCoordinates g100 ⟨25/2, 137/10⟩).1
        (gridCoordinates g100 ⟨25/2, 137/10⟩).2) ⟨25/2, 137/10⟩ = true :=
  cell_box_round_trip g100 ⟨25/2, 137/10⟩
    (by rw [g100_eq]; norm_num) (by rw [g100_eq]; norm_num)
    (by rw [g100_eq]; norm_num) (by rw [g100_eq]; norm_num)
    (by rw [g100_eq]; norm_num) (by rw [g100_eq]; norm_num)

/-- C10 (confirmed): for a segment whose endpoints lie strictly inside
the region of a grid built by `Init` with positive cell dimensions,
no bucket access `items_[column + row * num_rows_]` performed by
`AddLineSegment` ever reaches an out-of-range position, for any number
of loop iterations — the swapped `Init` member names still produce a
stride (`num_rows_`, the x-direction cell count) and a total size
(`num_cols_ * num_rows_`) under which the indexing stays in bounds. -/
theorem addLineSegment_access_in_bounds (bbox : BBox) (cw ch : ℚ)
    (edgeid : ℕ) (s : Seg) (fuel : ℕ) (hcw : 0 < cw) (hch : 0 < ch)
    (ha1 : bbox.minx < s.a.x) (ha2 : s.a.x < bbox.maxx)
    (ha3 : bbox.miny < s.a.y) (ha4 : s.a.y < bbox.maxy)
    (hb1 : bbox.minx < s.b.x) (hb2 : s.b.x < bbox.maxx)
    (hb3 : bbox.miny < s.b.y) (hb4 : s.b.y < bbox.maxy) :
    ¬ isOob (addLineSegment (initGrid bbox cw ch) edgeid s fuel) := by
  set g : Grid := initGrid bbox cw ch with hg
  unfold addLineSegment
  by_cases hc : (bboxContains g.bbox s.a && bboxContains g.bbox s.b) = true
  · rw [hc]
    simp only [if_true]
    have hgw : g.cell_width = cw := rfl
    have hgh : g.cell_height = ch := rfl
    have hgx : g.bbox = bbox := rfl
    have hcoord : gridCoordinates g s.a =
        (⌊(s.a.x - bbox.minx) / cw⌋, ⌊(s.a.y - bbox.miny) / ch⌋) := by
      rw [gridCoordinates_eq_floor g s.a (by rw [hgx]; exact ha1.le)
        (by rw [hgx]; exact ha3.le) (by rw [hgw]; exact hcw) (by rw [hgh]; exact hch),
        hgx, hgw, hgh]
    have hi0 : 0 ≤ ⌊(s.a.x - bbox.minx) / cw⌋ :=
      Int.floor_nonneg.mpr (div_nonneg (sub_nonneg.mpr ha1.le) hcw.le)
    have hj0 : 0 ≤ ⌊(s.a.y - bbox.miny) / ch⌋ :=
      Int.floor_nonneg.mpr (div_nonneg (sub_nonneg.mpr ha3.le) hch.le)
    have hiu : ⌊(s.a.x - bbox.minx) / cw⌋ < ⌈bbox.width / cw⌉ :=
      floor_lt_ceil_of_lt hcw (by unfold BBox.width; linarith)
    have hju : ⌊(s.a.y - bbox.miny) / ch⌋ < ⌈bbox.height / ch⌉ :=
      floor_lt_ceil_of_lt hch (by unfold BBox.height; linarith)
    have hnr0 : 0 ≤ ⌈bbox.width / cw⌉ := le_of_lt (lt_of_le_of_lt hi0 hiu)
    have hnc0 : 0 ≤ ⌈bbox.height / ch⌉ := le_of_lt (lt_of_le_of_lt hj0 hju)
    have hnr : (g.num_rows : ℤ) = ⌈bbox.width / cw⌉ := by
      show (((⌈bbox.width / cw⌉).toNat : ℕ) : ℤ) = _
      exact Int.toNat_of_nonneg hnr0
    have hlen : (g.items.length : ℤ) = ⌈bbox.height / ch⌉ * ⌈bbox.width / cw⌉ := by
      show (((List.replicate ((⌈bbox.height / ch⌉).toNat * (⌈bbox.width / cw⌉).toNat)
        ([] : List ℕ)).length : ℕ) : ℤ) = _
      rw [List.length_replicate]
      push_cast [Int.toNat_of_nonneg hnc0, Int.toNat_of_nonneg hnr0]
      ring
    apply addSegLoop_no_oob
    · rw [hcoord, hnr]
      have : 0 ≤ ⌊(s.a.y - bbox.miny) / ch⌋ * ⌈bbox.width / cw⌉ :=
        mul_nonneg hj0 hnr0
      simpa using add_nonneg hi0 this
    · have hidx0 : 0 ≤ (gridCoordinates g s.a).1 +
          (gridCoordinates g s.a).2 * (g.num_rows : ℤ) := by
        rw [hcoord, hnr]
        have : 0 ≤ ⌊(s.a.y - bbox.miny) / ch⌋ * ⌈bbox.width / cw⌉ :=
          mul_nonneg hj0 hnr0
        simpa using add_nonneg hi0 this
      have hidxu : (gridCoordinates g s.a).1 +
          (gridCoordinates g s.a).2 * (g.num_rows : ℤ) < (g.items.length : ℤ) := by
        rw [hcoord, hnr, hlen]
        have hmul : ⌊(s.a.y - bbox.miny) / ch⌋ * ⌈bbox.width / cw⌉ ≤
            (⌈bbox.height / ch⌉ - 1) * ⌈bbox.width / cw⌉ :=
          mul_le_mul_of_nonneg_right (by omega) hnr0
        simp only []
        nlinarith [hiu, hmul]
      omega
  · rw [if_neg hc]
    exact fun h => h

/-- Witness for C10: a concrete diagonal segment strictly inside the
unit-cell grid over `[0,100] × [0,100]`, run for seven loop iterations. -/
theorem addLineSegment_access_in_bounds_witness :
    ¬ isOob (addLineSegment (initGrid ⟨0, 0, 100, 100⟩ 1 1) 3
      ⟨⟨1/2, 1/2⟩, ⟨3/2, 5/2⟩⟩ 7) :=
  addLineSegment_access_in_bounds ⟨0, 0, 100, 100⟩ 1 1 3 ⟨⟨1/2, 1/2⟩, ⟨3/2, 5/2⟩⟩ 7
    (by norm_num) (by norm_num) (by norm_num) (by norm_num) (by norm_num)
    (by norm_num) (by norm_num) (by norm_num) (by norm_num) (by norm_num)

/-- C9 (confirmed): `CellLineSegmentIntersections` applies the
segment-segment intersection test to each of the four cell edges in the
order bottom, right, top, left and returns the collection of all
successful intersection points; and for a segment not collinear with any
cell edge the collection contains at most two distinct points (a corner
crossing can contribute the same point through two adjacent edges, so
the entry count may exceed the number of points, but never the number of
distinct boundary points of a line through a rectangle). -/
theorem cellIntersections_four_edges_at_most_two (g : Grid) (i j : ℤ) (s : Seg)
    (hw : 0 < g.cell_width) (hh : 0 < g.cell_height)
    (hnc : ¬ collinearWithCellEdge g i j s) :
    cellLineSegmentIntersections g i j s = (cellEdges g i j).filterMap (segIntersect s) ∧
      (cellLineSegmentIntersections g i j s).toFinset.card ≤ 2 := by
  refine ⟨cellIntersections_eq_filterMap g i j s, ?_⟩
  by_contra hcard
  push_neg at hcard
  obtain ⟨p, q, r, hp, hq, hr, hpq, hpr, hqr⟩ := Finset.two_lt_card_iff.mp hcard
  rw [List.mem_toFinset] at hp hq hr
  obtain ⟨t1, hp1, hp2, hpE⟩ := mem_cellIntersections g i j s p hw hh hp
  obtain ⟨t2, hq1, hq2, hqE⟩ := mem_cellIntersections g i j s q hw hh hq
  obtain ⟨t3, hr1, hr2, hrE⟩ := mem_cellIntersections g i j s r hw hh hr
  have hx01 : (cellBoundingBox g i j).maxx - (cellBoundingBox g i j).minx
      = g.cell_width := by
    unfold cellBoundingBox
    push_cast
    ring
  have hy01 : (cellBoundingBox g i j).maxy - (cellBoundingBox g i j).miny
      = g.cell_height := by
    unfold cellBoundingBox
    push_cast
    ring
  simp only [collinearWithCellEdge, not_or] at hnc
  obtain ⟨ncb, ncr, nct, ncl0⟩ := hnc
  have nb : ¬ (s.b.y - s.a.y = 0 ∧ s.a.y = (cellBoundingBox g i j).miny) := by
    rintro ⟨hv, ha⟩
    exact ncb ⟨ha, by linarith⟩
  have nt2 : ¬ (s.b.y - s.a.y = 0 ∧ s.a.y = (cellBoundingBox g i j).maxy) := by
    rintro ⟨hv, ha⟩
    exact nct ⟨ha, by linarith⟩
  have nl2 : ¬ (s.b.x - s.a.x = 0 ∧ s.a.x = (cellBoundingBox g i j).minx) := by
    rintro ⟨hv, ha⟩
    exact ncl0 ⟨ha, by linarith⟩
  have nr2 : ¬ (s.b.x - s.a.x = 0 ∧ s.a.x = (cellBoundingBox g i j).maxx) := by
    rintro ⟨hv, ha⟩
    exact ncr ⟨ha, by linarith⟩
  have h12 : t1 ≠ t2 := fun heq =>
    hpq (Pt.ext (by rw [hp1, hq1, heq]) (by rw [hp2, hq2, heq]))
  have h13 : t1 ≠ t3 := fun heq =>
    hpr (Pt.ext (by rw [hp1, hr1, heq]) (by rw [hp2, hr2, heq]))
  have h23 : t2 ≠ t3 := fun heq =>
    hqr (Pt.ext (by rw [hq1, hr1, heq]) (by rw [hq2, hr2, heq]))
  exact no_three_hits s.a.x s.a.y (s.b.x - s.a.x) (s.b.y - s.a.y)
    (cellBoundingBox g i j).minx (cellBoundingBox g i j).maxx
    (cellBoundingBox g i j).miny (cellBoundingBox g i j).maxy t1 t2 t3
    (by linarith) (by linarith) nb nt2 nl2 nr2 h12 h13 h23 hpE hqE hrE

/-- Witness for C9 at the concrete instance of the source tests:
the horizontal segment `(2.5, 3.5)-(10, 3.5)` against cell `(2, 3)` of
the unit-cell grid, which is not collinear with any edge of that cell. -/
theorem cellIntersections_four_edges_at_most_two_witness :
    (¬ collinearWithCellEdge g100 2 3 ⟨⟨5/2, 7/2⟩, ⟨10, 7/2⟩⟩) ∧
    (cellLineSegmentIntersections g100 2 3 ⟨⟨5/2, 7/2⟩, ⟨10, 7/2⟩⟩ =
        (cellEdges g100 2 3).filterMap (segIntersect ⟨⟨5/2, 7/2⟩, ⟨10, 7/2⟩⟩) ∧
      (cellLineSegmentIntersections g100 2 3 ⟨⟨5/2, 7/2⟩, ⟨10, 7/2⟩⟩).toFinset.card ≤ 2) := by
  have hnc : ¬ collinearWithCellEdge g100 2 3 ⟨⟨5/2, 7/2⟩, ⟨10, 7/2⟩⟩ := by
    rw [g100_eq]
    simp only [collinearWithCellEdge, cellBoundingBox, not_or]
    norm_num
  exact ⟨hnc, cellIntersections_four_edges_at_most_two g100 2 3 ⟨⟨5/2, 7/2⟩, ⟨10, 7/2⟩⟩
    (by rw [g100_eq]; norm_num) (by rw [g100_eq]; norm_num) hnc⟩
